import Mathlib

/-!
Verification of the purchase-transaction API core: exchange-rate temporal
validity, money arithmetic, the two-tier rate resolver with opportunistic
caching, the conversion orchestrator, and pagination.

Modelling conventions:
* Go `time.Time` values in this code base are always dates at midnight UTC;
  they are modelled by `GoDate` (year/month/day) together with `GoDate.toDays`,
  the count of days since the proleptic Gregorian epoch, which is how Go
  compares instants (`Before` / `After`).  `AddDate` is modelled by
  `GoDate.addDate`, reproducing Go's month normalisation (`norm`) and its
  treatment of out-of-range days (a day beyond the month's end rolls over,
  because the instant is computed linearly in the day number).
* Go `float64` arithmetic is modelled exactly over `ℚ`; the `float64 → int64`
  conversion in `NewMoney` truncates toward zero, modelled by `goTrunc`.
* `uuid.UUID` is modelled by `Nat` (0 playing the role of the nil UUID).
* The SQLite repositories are modelled by lists of entities; the Treasury
  service call is modelled by its outcome (`Except String ExchangeRate`), and
  a possible failure of the cache write by a boolean `saveFails`.
-/

namespace PurchaseApi

/-! ## Dates: model of Go `time.Time` at day granularity -/

/-- Leap-year test, as in Go's `isLeap`. -/
def isLeap (y : Int) : Bool := y % 4 == 0 && (y % 100 != 0 || y % 400 == 0)

/-- Cumulative days before the given month in a non-leap year
(Go's `daysBefore` table). -/
def daysBeforeMonth (m : Int) : Int :=
  if m = 1 then 0 else if m = 2 then 31 else if m = 3 then 59
  else if m = 4 then 90 else if m = 5 then 120 else if m = 6 then 151
  else if m = 7 then 181 else if m = 8 then 212 else if m = 9 then 243
  else if m = 10 then 273 else if m = 11 then 304 else 334

/-- A calendar date (Go `time.Time` at midnight UTC).  The month is 1-12 in
every date produced by normalisation; the day may exceed the month length in
the intermediate result of `addDate`, which `toDays` interprets exactly as Go
does (linearly, rolling over into the next month). -/
structure GoDate where
  year : Int
  month : Int
  day : Int
deriving DecidableEq

/-- Days elapsed since the proleptic Gregorian epoch (Jan 1 of year 1), the
instant Go computes for a date: whole years with leap corrections, days before
the month, the leap-day correction for March onwards, then `day - 1` days.
All divisors are positive, so `/` (Euclidean division) agrees with the floor
division performed by Go's cycle counting. -/
def GoDate.toDays (t : GoDate) : Int :=
  365 * (t.year - 1) + (t.year - 1) / 4 - (t.year - 1) / 100 + (t.year - 1) / 400
    + daysBeforeMonth t.month
    + (if isLeap t.year = true ∧ 3 ≤ t.month then 1 else 0)
    + (t.day - 1)

/-- Go's `norm(year, month-1, 12)`: bring the (0-based) month into `[0, 11]`,
carrying into the year.  For the positive base 12, Go's branchy computation is
exactly floor division, which is Euclidean division `/` on `Int`. -/
def normMonth (year month : Int) : Int × Int :=
  (year + (month - 1) / 12, (month - 1) % 12 + 1)

/-- Model of Go `Time.AddDate(years, months, days)` on dates. -/
def GoDate.addDate (t : GoDate) (years months days : Int) : GoDate :=
  let ym := normMonth (t.year + years) (t.month + months)
  ⟨ym.1, ym.2, t.day + days⟩

/-- Model of Go `Time.Before`. -/
def GoDate.before (a b : GoDate) : Bool := decide (a.toDays < b.toDays)

/-- Model of Go `Time.After`. -/
def GoDate.after (a b : GoDate) : Bool := decide (b.toDays < a.toDays)

/-- Subtraction of six calendar months as the specification words it:
June 15 maps to December 15 of the prior year; the month moves back six
positions, borrowing a year when needed; the day is unchanged. -/
def specSixMonthsBefore (t : GoDate) : GoDate :=
  if 7 ≤ t.month then ⟨t.year, t.month - 6, t.day⟩ else ⟨t.year - 1, t.month + 6, t.day⟩

/-- On dates with a normalised month, Go's `AddDate(0, -6, 0)` is exactly the
specification's calendar subtraction of six months. -/
lemma addDate_neg6_eq_spec (t : GoDate) (h1 : 1 ≤ t.month) (h2 : t.month ≤ 12) :
    t.addDate 0 (-6) 0 = specSixMonthsBefore t := by
  obtain ⟨y, m, d⟩ := t
  simp only [GoDate.addDate, normMonth, specSixMonthsBefore] at h1 h2 ⊢
  split <;> simp only [GoDate.mk.injEq] <;> omega

/-! ## Currency codes -/

/-- Model of `entities.CurrencyCode` (a Go string). -/
abbrev CurrencyCode := String

/-- Model of `CurrencyCode.IsValid`: Go checks the byte length is 3 and that
every rune is an uppercase ASCII letter. -/
def CurrencyCode.IsValid (c : CurrencyCode) : Bool :=
  if c.utf8ByteSize ≠ 3 then false
  else c.data.all (fun char => !(char < 'A' || char > 'Z'))

/-- Model of the constant `entities.USD`. -/
def USD : CurrencyCode := "USD"

/-! ## Money -/

/-- Model of `entities.Money`: an `int64` count of cents. -/
abbrev Money := Int

/-- Go's `float64 → int64` conversion truncates toward zero. -/
def goTrunc (q : ℚ) : Int := if 0 ≤ q then ⌊q⌋ else -⌊-q⌋

/-- Model of `entities.NewMoney`: `Money(dollars*100 + 0.5)`. -/
def NewMoney (dollars : ℚ) : Money := goTrunc (dollars * 100 + 0.5)

/-- Model of `Money.Dollars`: `float64(m) / 100.0`. -/
def Money.Dollars (m : Money) : ℚ := (m : ℚ) / 100

/-- Model of `Money.IsPositive`. -/
def Money.IsPositive (m : Money) : Bool := decide (0 < m)

/-! ## Exchange rates -/

/-- Model of `entities.ExchangeRate` (the `CreatedAt` timestamp is omitted;
nothing in the verified code reads it). -/
structure ExchangeRate where
  ID : Nat
  FromCurrency : CurrencyCode
  ToCurrency : CurrencyCode
  Rate : ℚ
  EffectiveDate : GoDate
  RecordDate : GoDate
deriving DecidableEq

/-- Model of `ExchangeRate.IsWithinDateRange`: the effective date is neither
before `transactionDate.AddDate(0, -6, 0)` nor after `transactionDate`. -/
def ExchangeRate.IsWithinDateRange (er : ExchangeRate) (transactionDate : GoDate) : Bool :=
  let sixMonthsAgo := transactionDate.addDate 0 (-6) 0
  !(er.EffectiveDate.before sixMonthsAgo) && !(er.EffectiveDate.after transactionDate)

/-- Model of `ExchangeRate.ConvertAmount`: convert to dollars, multiply by the
rate, re-quantise through `NewMoney`. -/
def ExchangeRate.ConvertAmount (er : ExchangeRate) (amount : Money) : Money :=
  NewMoney (Money.Dollars amount * er.Rate)

/-! ## Transactions -/

/-- Model of `entities.Transaction` (timestamps omitted; nothing verified
reads them). -/
structure Transaction where
  ID : Nat
  Description : String
  Date : GoDate
  Amount : Money
deriving DecidableEq

/-- Model of `entities.ConvertedTransaction`. -/
structure ConvertedTransaction where
  Transaction : Transaction
  TargetCurrency : CurrencyCode
  ExchangeRate : ℚ
  ConvertedAmount : Money
  EffectiveDate : GoDate
deriving DecidableEq

/-- Model of `entities.NewConvertedTransaction`: three validation checks, in
source order, then the converted value is computed and packaged. -/
def NewConvertedTransaction (tx : Transaction) (targetCurrency : CurrencyCode)
    (exchangeRate : ExchangeRate) : Except String ConvertedTransaction :=
  if exchangeRate.IsWithinDateRange tx.Date = false then
    .error "exchange rate date is not within 6 months of transaction date"
  else if exchangeRate.FromCurrency ≠ USD then
    .error "conversion must be from USD"
  else if exchangeRate.ToCurrency ≠ targetCurrency then
    .error "exchange rate currency does not match target currency"
  else
    .ok { Transaction := tx
          TargetCurrency := targetCurrency
          ExchangeRate := exchangeRate.Rate
          ConvertedAmount := exchangeRate.ConvertAmount tx.Amount
          EffectiveDate := exchangeRate.EffectiveDate }

/-! ## Local rate store (`sqliteExchangeRateRepository`) -/

/-- Choice between a candidate row and the best row seen so far, preferring
the more recent effective date. -/
def pickBetter (a : ExchangeRate) : Option ExchangeRate → ExchangeRate
  | none => a
  | some best => if best.EffectiveDate.toDays ≤ a.EffectiveDate.toDays then a else best

/-- Model of `ORDER BY effective_date DESC ... First(...)`: some element of
maximal effective date (the row order among equal dates is the database's,
modelled here by preferring the earliest listed element). -/
def pickLatest : List ExchangeRate → Option ExchangeRate
  | [] => none
  | er :: rest => some (pickBetter er (pickLatest rest))

/-- The predicate of the `WHERE` clauses of `FindRateForConversion`. -/
def rateMatches (fromC toC : CurrencyCode) (transactionDate : GoDate)
    (er : ExchangeRate) : Bool :=
  er.FromCurrency == fromC && er.ToCurrency == toC
    && decide (er.EffectiveDate.toDays ≤ transactionDate.toDays)
    && decide ((transactionDate.addDate 0 (-6) 0).toDays ≤ er.EffectiveDate.toDays)

/-- Model of `sqliteExchangeRateRepository.FindRateForConversion`: filter on
currency pair and the six-month window (computed with `AddDate(0, -6, 0)`
exactly as the entity does), then take the most recent effective date.
`none` models the `gorm.ErrRecordNotFound` path returning `nil, nil`. -/
def FindRateForConversion (store : List ExchangeRate) (fromC toC : CurrencyCode)
    (transactionDate : GoDate) : Option ExchangeRate :=
  pickLatest (store.filter (rateMatches fromC toC transactionDate))

/-! ## Rate resolver (`ConvertTransactionUseCase.findExchangeRate`) -/

/-- Outcome of one run of `findExchangeRate`: the returned value, the local
store after the call, and how many Treasury calls were made. -/
structure RateResolution where
  result : Except String ExchangeRate
  rates : List ExchangeRate
  treasuryCalls : Nat

/-- Model of `ConvertTransactionUseCase.findExchangeRate`.  `treasury` is the
outcome the Treasury service would produce if called; `saveFails` tells
whether the cache write (`exchangeRateRepo.Save`) would return an error, in
which case the code only logs a warning and still returns the fetched rate. -/
def findExchangeRate (rates : List ExchangeRate) (treasury : Except String ExchangeRate)
    (saveFails : Bool) (targetCurrency : CurrencyCode) (transactionDate : GoDate) :
    RateResolution :=
  match FindRateForConversion rates USD targetCurrency transactionDate with
  | some exchangeRate => ⟨.ok exchangeRate, rates, 0⟩
  | none =>
    match treasury with
    | .error e => ⟨.error ("failed to fetch exchange rate from Treasury API: " ++ e), rates, 1⟩
    | .ok treasuryRate =>
      if saveFails then
        ⟨.ok treasuryRate, rates, 1⟩
      else
        ⟨.ok treasuryRate, rates ++ [treasuryRate], 1⟩

/-! ## DTOs -/

/-- Model of `dto.ConvertTransactionRequest`. -/
structure ConvertTransactionRequest where
  TransactionID : Nat
  TargetCurrency : CurrencyCode
deriving DecidableEq

/-- Model of `dto.GetTransactionResponse` (timestamps omitted). -/
structure GetTransactionResponse where
  ID : Nat
  Description : String
  Date : GoDate
  Amount : ℚ
deriving DecidableEq

/-- Model of `dto.NewGetTransactionResponse`. -/
def NewGetTransactionResponse (transaction : Transaction) : GetTransactionResponse :=
  { ID := transaction.ID
    Description := transaction.Description
    Date := transaction.Date
    Amount := transaction.Amount.Dollars }

/-- Model of `dto.ListTransactionsResponse`. -/
structure ListTransactionsResponse where
  Data : List GetTransactionResponse
  Page : Int
  Size : Int
  Total : Int
  TotalPages : Int
deriving DecidableEq

/-- Model of `dto.NewListTransactionsResponse`: Go `int64` division truncates
toward zero, hence `Int.tdiv` in the ceiling-division formula. -/
def NewListTransactionsResponse (transactions : List Transaction) (page size : Int)
    (total : Int) : ListTransactionsResponse :=
  { Data := transactions.map (fun tx => NewGetTransactionResponse tx)
    Page := page
    Size := size
    Total := total
    TotalPages := Int.tdiv (total + size - 1) size }

/-- Model of `dto.ConvertTransactionResponse`. -/
structure ConvertTransactionResponse where
  Transaction : GetTransactionResponse
  TargetCurrency : CurrencyCode
  ExchangeRate : ℚ
  ConvertedAmount : ℚ
  EffectiveDate : GoDate
deriving DecidableEq

/-- Model of `dto.NewConvertTransactionResponse`. -/
def NewConvertTransactionResponse (convertedTx : ConvertedTransaction) :
    ConvertTransactionResponse :=
  { Transaction := NewGetTransactionResponse convertedTx.Transaction
    TargetCurrency := convertedTx.TargetCurrency
    ExchangeRate := convertedTx.ExchangeRate
    ConvertedAmount := convertedTx.ConvertedAmount.Dollars
    EffectiveDate := convertedTx.EffectiveDate }

/-! ## Conversion orchestrator (`ConvertTransactionUseCase.Execute`) -/

/-- Model of `validator.Struct` on `ConvertTransactionRequest`: both fields
carry `validate:"required"`, which fails on the zero value (nil UUID, empty
string). -/
def validateRequest (request : ConvertTransactionRequest) : Except String Unit :=
  if request.TransactionID = 0 then .error "TransactionID is required"
  else if request.TargetCurrency = "" then .error "TargetCurrency is required"
  else .ok ()

/-- Model of `sqliteTransactionRepository.GetByID` (`nil, nil` on a miss). -/
def GetByID (transactions : List Transaction) (id : Nat) : Option Transaction :=
  transactions.find? (fun t => t.ID == id)

/-- Model of `ConvertTransactionUseCase.getTransaction`. -/
def getTransaction (transactions : List Transaction) (transactionID : Nat) :
    Except String Transaction :=
  match GetByID transactions transactionID with
  | none => .error "transaction not found with id"
  | some transaction => .ok transaction

/-- Model of `ConvertTransactionUseCase.validateConversionRules`: the target
must be a valid currency code and must differ from USD. -/
def validateConversionRules (targetCurrency : CurrencyCode) : Except String Unit :=
  if CurrencyCode.IsValid targetCurrency = false then
    .error ("invalid target currency: " ++ targetCurrency)
  else if targetCurrency = USD then
    .error "cannot convert USD transaction to USD"
  else .ok ()

/-- Observable outcome of one `Execute` call: the returned value, both stores
after the call, and how often each rate-resolution tier was exercised. -/
structure ExecuteOutcome where
  result : Except String ConvertTransactionResponse
  transactions : List Transaction
  rates : List ExchangeRate
  localRateLookups : Nat
  treasuryCalls : Nat

/-- Model of `ConvertTransactionUseCase.Execute`: validation, transaction
lookup, business rules, rate resolution, converted-transaction construction,
response mapping — each step short-circuiting with a wrapped error. -/
def Execute (transactions : List Transaction) (rates : List ExchangeRate)
    (treasury : Except String ExchangeRate) (saveFails : Bool)
    (request : ConvertTransactionRequest) : ExecuteOutcome :=
  match validateRequest request with
  | .error e => ⟨.error ("validation failed: " ++ e), transactions, rates, 0, 0⟩
  | .ok _ =>
    match getTransaction transactions request.TransactionID with
    | .error e => ⟨.error ("failed to get transaction: " ++ e), transactions, rates, 0, 0⟩
    | .ok transaction =>
      match validateConversionRules request.TargetCurrency with
      | .error e =>
          ⟨.error ("conversion validation failed: " ++ e), transactions, rates, 0, 0⟩
      | .ok _ =>
        let rr := findExchangeRate rates treasury saveFails request.TargetCurrency
          transaction.Date
        match rr.result with
        | .error e =>
            ⟨.error ("failed to find exchange rate: " ++ e), transactions, rr.rates, 1,
              rr.treasuryCalls⟩
        | .ok exchangeRate =>
          match NewConvertedTransaction transaction request.TargetCurrency exchangeRate with
          | .error e =>
              ⟨.error ("failed to create converted transaction: " ++ e), transactions,
                rr.rates, 1, rr.treasuryCalls⟩
          | .ok convertedTransaction =>
              ⟨.ok (NewConvertTransactionResponse convertedTransaction), transactions,
                rr.rates, 1, rr.treasuryCalls⟩

/-! ## Helper lemmas -/

lemma pickLatest_eq_none_iff (l : List ExchangeRate) : pickLatest l = none ↔ l = [] := by
  cases l <;> simp [pickLatest]

lemma pickLatest_mem : ∀ {l : List ExchangeRate} {er : ExchangeRate},
    pickLatest l = some er → er ∈ l := by
  intro l
  induction l with
  | nil => intro er h; simp [pickLatest] at h
  | cons a rest ih =>
    intro er h
    simp only [pickLatest, Option.some.injEq] at h
    cases hr : pickLatest rest with
    | none =>
      rw [hr] at h
      simp only [pickBetter] at h
      subst h; simp
    | some best =>
      rw [hr] at h
      simp only [pickBetter] at h
      split at h
      · subst h; simp
      · subst h; exact List.mem_cons_of_mem _ (ih hr)

lemma pickLatest_isMax : ∀ {l : List ExchangeRate} {er : ExchangeRate},
    pickLatest l = some er →
      ∀ x ∈ l, x.EffectiveDate.toDays ≤ er.EffectiveDate.toDays := by
  intro l
  induction l with
  | nil => intro er h; simp [pickLatest] at h
  | cons a rest ih =>
    intro er h x hx
    simp only [pickLatest, Option.some.injEq] at h
    cases hr : pickLatest rest with
    | none =>
      rw [hr] at h
      simp only [pickBetter] at h
      subst h
      rw [pickLatest_eq_none_iff] at hr
      subst hr
      simp at hx
      subst hx
      omega
    | some best =>
      rw [hr] at h
      simp only [pickBetter] at h
      have hbest := ih hr
      rcases List.mem_cons.mp hx with hxa | hxr
      · subst hxa
        split at h <;> subst h <;> omega
      · have hxb := hbest x hxr
        split at h <;> subst h <;> omega

lemma rateMatches_iff (fromC toC : CurrencyCode) (T : GoDate) (er : ExchangeRate) :
    rateMatches fromC toC T er = true ↔
      er.FromCurrency = fromC ∧ er.ToCurrency = toC ∧ er.IsWithinDateRange T = true := by
  simp only [rateMatches, ExchangeRate.IsWithinDateRange, GoDate.before, GoDate.after,
    Bool.and_eq_true, beq_iff_eq, decide_eq_true_eq, Bool.not_eq_true', decide_eq_false_iff_not]
  constructor
  · rintro ⟨⟨⟨h1, h2⟩, h3⟩, h4⟩
    exact ⟨h1, h2, by omega, by omega⟩
  · rintro ⟨h1, h2, h3, h4⟩
    exact ⟨⟨⟨h1, h2⟩, by omega⟩, by omega⟩

lemma find_none_iff (store : List ExchangeRate) (fromC toC : CurrencyCode) (T : GoDate) :
    FindRateForConversion store fromC toC T = none ↔
      ∀ er ∈ store,
        ¬(er.FromCurrency = fromC ∧ er.ToCurrency = toC ∧ er.IsWithinDateRange T = true) := by
  rw [FindRateForConversion, pickLatest_eq_none_iff, List.filter_eq_nil_iff]
  constructor
  · intro h er hm hprop
    exact h er hm ((rateMatches_iff fromC toC T er).mpr hprop)
  · intro h er hm hmat
    exact h er hm ((rateMatches_iff fromC toC T er).mp hmat)

lemma find_some_spec {store : List ExchangeRate} {fromC toC : CurrencyCode} {T : GoDate}
    {er : ExchangeRate} (h : FindRateForConversion store fromC toC T = some er) :
    er ∈ store ∧ er.FromCurrency = fromC ∧ er.ToCurrency = toC ∧
      er.IsWithinDateRange T = true ∧
      ∀ x ∈ store, x.FromCurrency = fromC → x.ToCurrency = toC →
        x.IsWithinDateRange T = true → x.EffectiveDate.toDays ≤ er.EffectiveDate.toDays := by
  rw [FindRateForConversion] at h
  have hmem := pickLatest_mem h
  have hmax := pickLatest_isMax h
  rw [List.mem_filter, rateMatches_iff] at hmem
  refine ⟨hmem.1, hmem.2.1, hmem.2.2.1, hmem.2.2.2, ?_⟩
  intro x hx h1 h2 h3
  exact hmax x (List.mem_filter.mpr ⟨hx, (rateMatches_iff fromC toC T x).mpr ⟨h1, h2, h3⟩⟩)

lemma find_isSome_of_valid {store : List ExchangeRate} {fromC toC : CurrencyCode} {T : GoDate}
    (h : ∃ er ∈ store,
      er.FromCurrency = fromC ∧ er.ToCurrency = toC ∧ er.IsWithinDateRange T = true) :
    ∃ er, FindRateForConversion store fromC toC T = some er := by
  cases hf : FindRateForConversion store fromC toC T with
  | none =>
    obtain ⟨er, hm, hprop⟩ := h
    exact absurd hprop ((find_none_iff store fromC toC T).mp hf er hm)
  | some er => exact ⟨er, rfl⟩

/-- Fixture: an exchange rate with a given effective date. -/
def testRate (eff : GoDate) : ExchangeRate := ⟨0, USD, "EUR", 5, eff, eff⟩

/-- Fixture: a USD to BRL rate with a given rate value, effective 2024-01-15. -/
def rateWith (r : ℚ) : ExchangeRate := ⟨0, USD, "BRL", r, ⟨2024, 1, 15⟩, ⟨2024, 1, 15⟩⟩

/-- Fixture: a USD to BRL rate of 5.20 effective 2024-01-15. -/
def brlRate : ExchangeRate := ⟨7, USD, "BRL", 26/5, ⟨2024, 1, 15⟩, ⟨2024, 1, 15⟩⟩

/-- Fixture: a stored purchase of 100.00 dated 2024-01-20. -/
def tx0 : Transaction := ⟨1, "purchase", ⟨2024, 1, 20⟩, 10000⟩

/-- Ceiling division over the integers: for a positive divisor,
`(a + b - 1) / b` (Euclidean division) computes `⌈a / b⌉`. -/
lemma ediv_eq_ceil (a b : Int) (hb : 1 ≤ b) :
    (a + b - 1) / b = ⌈(a : ℚ) / (b : ℚ)⌉ := by
  have hbq : (0 : ℚ) < (b : ℚ) := by exact_mod_cast hb
  symm
  rw [Int.ceil_eq_iff]
  have hqr := Int.ediv_add_emod (a + b - 1) b
  have hr0 : 0 ≤ (a + b - 1) % b := Int.emod_nonneg _ (by omega)
  have hrlt : (a + b - 1) % b < b := Int.emod_lt_of_pos _ (by omega)
  have key1 : ((a + b - 1) / b - 1) * b < a := by nlinarith [hqr, hr0, hrlt]
  have key2 : a ≤ ((a + b - 1) / b) * b := by nlinarith [hqr, hr0, hrlt]
  constructor
  · rw [lt_div_iff₀ hbq]
    calc ((((a + b - 1) / b : Int) : ℚ) - 1) * (b : ℚ)
        = ((((a + b - 1) / b - 1) * b : Int) : ℚ) := by push_cast; ring
      _ < (a : ℚ) := by exact_mod_cast key1
  · rw [div_le_iff₀ hbq]
    calc (a : ℚ) ≤ ((((a + b - 1) / b) * b : Int) : ℚ) := by exact_mod_cast key2
      _ = (((a + b - 1) / b : Int) : ℚ) * (b : ℚ) := by push_cast; ring

/-! ## Claims -/

/-- C1: an exchange rate is valid for converting a purchase dated `T` iff its
effective date is on or before `T` and on or after `T` minus six calendar
months, both boundaries inclusive, where six calendar months is calendar
subtraction (June 15 maps back to December 15 of the prior year).  A rate
dated exactly six calendar months before `T` (2023-12-15 for `T` =
2024-06-15) is valid, one day earlier (2023-12-14) is invalid, a rate after
`T` (2024-06-16) is invalid, and a rate dated `T` itself is valid. -/
theorem c1_validity_window (er : ExchangeRate) (T : GoDate)
    (h1 : 1 ≤ T.month) (h2 : T.month ≤ 12) :
    (er.IsWithinDateRange T = true ↔
      (specSixMonthsBefore T).toDays ≤ er.EffectiveDate.toDays ∧
        er.EffectiveDate.toDays ≤ T.toDays) ∧
    (testRate ⟨2023, 12, 15⟩).IsWithinDateRange ⟨2024, 6, 15⟩ = true ∧
    (testRate ⟨2023, 12, 14⟩).IsWithinDateRange ⟨2024, 6, 15⟩ = false ∧
    (testRate ⟨2024, 6, 16⟩).IsWithinDateRange ⟨2024, 6, 15⟩ = false ∧
    (testRate ⟨2024, 6, 15⟩).IsWithinDateRange ⟨2024, 6, 15⟩ = true := by
  refine ⟨?_, by decide, by decide, by decide, by decide⟩
  simp only [ExchangeRate.IsWithinDateRange, GoDate.before, GoDate.after,
    addDate_neg6_eq_spec T h1 h2, Bool.and_eq_true, Bool.not_eq_true',
    decide_eq_false_iff_not]
  omega

/-- Witness for C1 at `T` = 2024-06-15 against the rate dated 2023-12-15. -/
theorem c1_validity_window_witness :
    (1 ≤ (GoDate.mk 2024 6 15).month ∧ (GoDate.mk 2024 6 15).month ≤ 12) ∧
    ((testRate ⟨2023, 12, 15⟩).IsWithinDateRange ⟨2024, 6, 15⟩ = true ↔
      (specSixMonthsBefore ⟨2024, 6, 15⟩).toDays ≤
          (testRate ⟨2023, 12, 15⟩).EffectiveDate.toDays ∧
        (testRate ⟨2023, 12, 15⟩).EffectiveDate.toDays ≤ (GoDate.mk 2024 6 15).toDays) :=
  ⟨⟨by decide, by decide⟩,
    (c1_validity_window (testRate ⟨2023, 12, 15⟩) ⟨2024, 6, 15⟩ (by decide) (by decide)).1⟩

/-- C2: conversion is computed in a single step — dollars times rate, then one
final quantisation through `NewMoney` — and 100.00 at rate 5.20 converts to
520.00 while 99.99 at rate 5.196743 converts to 519.62. -/
theorem c2_single_step_conversion :
    (∀ (er : ExchangeRate) (amount : Money),
        er.ConvertAmount amount = NewMoney (Money.Dollars amount * er.Rate)) ∧
    (rateWith (52/10)).ConvertAmount (NewMoney 100) = 52000 ∧
    Money.Dollars ((rateWith (52/10)).ConvertAmount (NewMoney 100)) = 520 ∧
    (rateWith (5196743/1000000)).ConvertAmount (NewMoney (9999/100)) = 51962 ∧
    Money.Dollars ((rateWith (5196743/1000000)).ConvertAmount (NewMoney (9999/100)))
      = 519.62 := by
  refine ⟨fun er amount => rfl, ?_, ?_, ?_, ?_⟩ <;>
    norm_num [rateWith, ExchangeRate.ConvertAmount, NewMoney, goTrunc, Money.Dollars]

/-- C7 counterexample: `NewMoney` truncates toward zero after adding 0.5, so
for the negative amount -0.036 it produces -3 cents, while rounding -3.6 to
the nearest integer with halves up gives -4; the claimed rounding rule fails
for negative amounts. -/
theorem c7_counterexample :
    NewMoney (-(36/1000) : ℚ) = -3 ∧ ⌊(-(36/1000) : ℚ) * 100 + 1/2⌋ = -4 ∧
    NewMoney (-(36/1000) : ℚ) ≠ ⌊(-(36/1000) : ℚ) * 100 + 1/2⌋ := by
  refine ⟨?_, by norm_num, ?_⟩ <;> norm_num [NewMoney, goTrunc]

/-- C7 (amended): for every nonnegative decimal amount, `NewMoney` multiplies
by 100 and rounds to the nearest integer with halves rounding up; in
particular 19.994 gives 1999 minor units and 19.996 gives 2000. -/
theorem c7_half_up_rounding (d : ℚ) (hd : 0 ≤ d) :
    NewMoney d = ⌊d * 100 + 1/2⌋ ∧
    NewMoney (19.994 : ℚ) = 1999 ∧ NewMoney (19.996 : ℚ) = 2000 := by
  refine ⟨?_, by norm_num [NewMoney, goTrunc], by norm_num [NewMoney, goTrunc]⟩
  rw [NewMoney, goTrunc, if_pos (by linarith)]
  norm_num

/-- Witness for C7 (amended) at `d` = 19.994. -/
theorem c7_half_up_rounding_witness :
    (0 ≤ (19.994 : ℚ)) ∧
    (NewMoney (19.994 : ℚ) = ⌊(19.994 : ℚ) * 100 + 1/2⌋ ∧
      NewMoney (19.994 : ℚ) = 1999 ∧ NewMoney (19.996 : ℚ) = 2000) :=
  ⟨by norm_num, c7_half_up_rounding (19.994 : ℚ) (by norm_num)⟩

/-- C8 counterexample: at `d` = -0.0249 the round trip gives -0.01, which is
0.0139 away from `d`, beyond one minor unit; the round-trip bound fails for
negative amounts because the conversion truncates toward zero. -/
theorem c8_counterexample :
    ¬ |Money.Dollars (NewMoney (-(249/10000) : ℚ)) - (-(249/10000) : ℚ)| ≤ 1/100 := by
  norm_num [NewMoney, goTrunc, Money.Dollars]
  rw [show |(149 : ℚ)/10000| = 149/10000 from abs_of_pos (by norm_num)]
  norm_num

/-- C8 (amended): for every nonnegative decimal amount `d`, the round trip
`Money.Dollars (NewMoney d)` differs from `d` by at most 0.01. -/
theorem c8_round_trip (d : ℚ) (hd : 0 ≤ d) :
    |Money.Dollars (NewMoney d) - d| ≤ 1/100 := by
  rw [NewMoney, goTrunc, if_pos (by linarith), Money.Dollars]
  have h1 := Int.floor_le (d * 100 + 0.5)
  have h2 := Int.lt_floor_add_one (d * 100 + 0.5)
  rw [abs_le]
  constructor <;> [linarith; linarith]

/-- Witness for C8 (amended) at `d` = 19.994. -/
theorem c8_round_trip_witness :
    (0 ≤ (19.994 : ℚ)) ∧
    |Money.Dollars (NewMoney (19.994 : ℚ)) - (19.994 : ℚ)| ≤ 1/100 :=
  ⟨by norm_num, c8_round_trip (19.994 : ℚ) (by norm_num)⟩

/-- C9: the listing response computes `totalPages` as the ceiling of
`total / size` via `(total + size - 1) / size` in integer arithmetic, a
total of 0 gives 0 pages, 21 items at page size 10 give 3 pages, and 20
items at page size 10 give 2 pages. -/
theorem c9_total_pages (l : List Transaction) (page total size : Int)
    (h0 : 0 ≤ total) (h1 : 1 ≤ size) (h2 : size ≤ 100) :
    (NewListTransactionsResponse l page size total).TotalPages
        = ⌈(total : ℚ) / (size : ℚ)⌉ ∧
    (total = 0 → (NewListTransactionsResponse l page size total).TotalPages = 0) ∧
    (NewListTransactionsResponse [] 1 10 21).TotalPages = 3 ∧
    (NewListTransactionsResponse [] 1 10 20).TotalPages = 2 ∧
    (NewListTransactionsResponse [] 1 10 0).TotalPages = 0 := by
  have hmain : (NewListTransactionsResponse l page size total).TotalPages
      = ⌈(total : ℚ) / (size : ℚ)⌉ := by
    show Int.tdiv (total + size - 1) size = _
    rw [Int.tdiv_eq_ediv (by omega) (by omega)]
    exact ediv_eq_ceil total size h1
  refine ⟨hmain, ?_, by decide, by decide, by decide⟩
  intro htz
  subst htz
  show Int.tdiv (0 + size - 1) size = 0
  rw [Int.tdiv_eq_ediv (by omega) (by omega)]
  exact Int.ediv_eq_zero_of_lt (by omega) (by omega)

/-- Witness for C9 at `total` = 21, `size` = 10. -/
theorem c9_total_pages_witness :
    ((0 : Int) ≤ 21 ∧ (1 : Int) ≤ 10 ∧ (10 : Int) ≤ 100) ∧
    (NewListTransactionsResponse [] 1 10 21).TotalPages = ⌈(21 : ℚ) / (10 : ℚ)⌉ :=
  ⟨⟨by norm_num, by norm_num, by norm_num⟩,
    (c9_total_pages [] 1 21 10 (by norm_num) (by norm_num) (by norm_num)).1⟩

/-- C10: `NewConvertedTransaction` succeeds exactly when the rate's source
currency is USD, its target currency matches the requested target, and its
effective date lies within the six-month validity window of the transaction
date; if any of the three checks fails, an error is returned and no converted
transaction is produced. -/
theorem c10_construction_invariants (tx : Transaction) (target : CurrencyCode)
    (er : ExchangeRate) :
    (∃ ct, NewConvertedTransaction tx target er = .ok ct) ↔
      er.FromCurrency = USD ∧ er.ToCurrency = target ∧
        er.IsWithinDateRange tx.Date = true := by
  rw [NewConvertedTransaction]
  split_ifs with hA hB hC
  · simp [hA]
  · simp [hB]
  · simp [hC]
  · constructor
    · intro _
      exact ⟨not_not.mp hB, not_not.mp hC, by simpa using hA⟩
    · intro _
      exact ⟨_, rfl⟩

/-- C4: on a local miss, when the Treasury fetch succeeds but the cache write
fails, the resolver still returns the fetched rate, the local store is left
unchanged, and the write failure is not propagated as an error. -/
theorem c4_cache_failure_not_propagated (rates : List ExchangeRate)
    (target : CurrencyCode) (T : GoDate) (tr : ExchangeRate)
    (hmiss : FindRateForConversion rates USD target T = none) :
    findExchangeRate rates (.ok tr) true target T =
      { result := .ok tr, rates := rates, treasuryCalls := 1 } := by
  simp [findExchangeRate, hmiss]

/-- Witness for C4 with an empty local store. -/
theorem c4_cache_failure_witness :
    FindRateForConversion [] USD "BRL" ⟨2024, 1, 20⟩ = none ∧
    findExchangeRate [] (.ok brlRate) true "BRL" ⟨2024, 1, 20⟩ =
      { result := .ok brlRate, rates := [], treasuryCalls := 1 } :=
  ⟨rfl, c4_cache_failure_not_propagated [] "BRL" ⟨2024, 1, 20⟩ brlRate rfl⟩

/-- C5: when the requested target currency is USD itself and the purchase
record exists, `Execute` fails with the invalid-conversion business-rule
error, regardless of the rate store, the Treasury outcome, or the cache
behaviour, and neither rate-resolution tier is exercised. -/
theorem c5_usd_target_rejected (transactions : List Transaction)
    (rates : List ExchangeRate) (treasury : Except String ExchangeRate)
    (saveFails : Bool) (request : ConvertTransactionRequest) (tx : Transaction)
    (hid : request.TransactionID ≠ 0)
    (htc : request.TargetCurrency = USD)
    (hfound : GetByID transactions request.TransactionID = some tx) :
    Execute transactions rates treasury saveFails request =
      { result := .error "conversion validation failed: cannot convert USD transaction to USD"
        transactions := transactions
        rates := rates
        localRateLookups := 0
        treasuryCalls := 0 } := by
  have h1 : validateRequest request = .ok () := by
    rw [validateRequest, if_neg hid, if_neg (by rw [htc]; decide)]
  have h2 : getTransaction transactions request.TransactionID = .ok tx := by
    rw [getTransaction, hfound]
  have h3 : validateConversionRules request.TargetCurrency =
      .error "cannot convert USD transaction to USD" := by
    rw [validateConversionRules, htc, if_neg (by decide), if_pos rfl]
  simp [Execute, h1, h2, h3]

/-- Witness for C5: a stored purchase converted to USD. -/
theorem c5_usd_target_rejected_witness :
    ((ConvertTransactionRequest.mk 1 USD).TransactionID ≠ 0 ∧
      (ConvertTransactionRequest.mk 1 USD).TargetCurrency = USD ∧
      GetByID [tx0] (ConvertTransactionRequest.mk 1 USD).TransactionID = some tx0) ∧
    Execute [tx0] [] (.error "down") false (ConvertTransactionRequest.mk 1 USD) =
      { result := .error "conversion validation failed: cannot convert USD transaction to USD"
        transactions := [tx0]
        rates := []
        localRateLookups := 0
        treasuryCalls := 0 } :=
  ⟨⟨by decide, rfl, rfl⟩,
    c5_usd_target_rejected [tx0] [] (.error "down") false
      (ConvertTransactionRequest.mk 1 USD) tx0 (by decide) rfl rfl⟩

/-- The store after `findExchangeRate` is either unchanged or extended by
exactly the one fetched rate. -/
lemma findExchangeRate_rates_cases (rates : List ExchangeRate)
    (treasury : Except String ExchangeRate) (saveFails : Bool)
    (target : CurrencyCode) (T : GoDate) :
    (findExchangeRate rates treasury saveFails target T).rates = rates ∨
    ∃ tr, (findExchangeRate rates treasury saveFails target T).rates = rates ++ [tr] := by
  cases hF : FindRateForConversion rates USD target T with
  | some er => left; simp [findExchangeRate, hF]
  | none =>
    cases treasury with
    | error e => left; simp [findExchangeRate, hF]
    | ok tr =>
      cases saveFails with
      | true => left; simp [findExchangeRate, hF]
      | false => right; exact ⟨tr, by simp [findExchangeRate, hF]⟩

/-- C6 counterexample: with an empty rate store and a successful Treasury
fetch, a convert call persists a new exchange-rate entity into the local
store, so the call is not free of entity creation. -/
theorem c6_counterexample :
    (Execute [tx0] [] (.ok brlRate) false (ConvertTransactionRequest.mk 1 "BRL")).rates
        = [brlRate] ∧
    [brlRate] ≠ ([] : List ExchangeRate) := by
  exact ⟨rfl, by decide⟩

/-- The purchase store is returned unchanged by every `Execute` branch. -/
lemma Execute_transactions_eq (transactions : List Transaction)
    (rates : List ExchangeRate) (treasury : Except String ExchangeRate)
    (saveFails : Bool) (request : ConvertTransactionRequest) :
    (Execute transactions rates treasury saveFails request).transactions = transactions := by
  simp only [Execute]
  repeat' split
  all_goals rfl

/-- The rate store after `Execute` is either unchanged or extended by
exactly one fetched rate. -/
lemma Execute_rates_cases (transactions : List Transaction)
    (rates : List ExchangeRate) (treasury : Except String ExchangeRate)
    (saveFails : Bool) (request : ConvertTransactionRequest) :
    (Execute transactions rates treasury saveFails request).rates = rates ∨
    ∃ tr, (Execute transactions rates treasury saveFails request).rates
        = rates ++ [tr] := by
  simp only [Execute]
  repeat' split
  all_goals
    first
      | (left; rfl)
      | exact findExchangeRate_rates_cases rates treasury saveFails request.TargetCurrency _

/-- C6 (amended): a convert call never mutates or deletes a stored entity:
the purchase store is returned unchanged and the rate store is only ever
extended, by at most the one rate cached during resolution; the conversion
result itself is not persisted anywhere. -/
theorem c6_frame_property (transactions : List Transaction)
    (rates : List ExchangeRate) (treasury : Except String ExchangeRate)
    (saveFails : Bool) (request : ConvertTransactionRequest) :
    (Execute transactions rates treasury saveFails request).transactions = transactions ∧
    ∃ suffix : List ExchangeRate,
      (Execute transactions rates treasury saveFails request).rates = rates ++ suffix ∧
      suffix.length ≤ 1 := by
  refine ⟨Execute_transactions_eq transactions rates treasury saveFails request, ?_⟩
  rcases Execute_rates_cases transactions rates treasury saveFails request with h | ⟨tr, h⟩
  · exact ⟨[], by simp [h], by simp⟩
  · exact ⟨[tr], by simp [h], by simp⟩

/-- C3: the resolver's two-tier contract.  If the local store holds a rate
for USD to the target valid for the purchase date, no Treasury call is made,
the store is unchanged, and the returned rate is a stored valid one with the
latest effective date among valid candidates.  If the local store holds no
valid rate, the Treasury is queried exactly once and, when the fetch succeeds
and the cache write does not fail, exactly one new entry — the fetched rate —
is appended to the store and that rate is returned. -/
theorem c3_two_tier_resolution (rates : List ExchangeRate)
    (treasury : Except String ExchangeRate) (saveFails : Bool)
    (target : CurrencyCode) (T : GoDate) :
    ((∃ er ∈ rates, er.FromCurrency = USD ∧ er.ToCurrency = target ∧
        er.IsWithinDateRange T = true) →
      (findExchangeRate rates treasury saveFails target T).treasuryCalls = 0 ∧
      (findExchangeRate rates treasury saveFails target T).rates = rates ∧
      ∃ er, (findExchangeRate rates treasury saveFails target T).result = .ok er ∧
        er ∈ rates ∧ er.FromCurrency = USD ∧ er.ToCurrency = target ∧
        er.IsWithinDateRange T = true ∧
        ∀ x ∈ rates, x.FromCurrency = USD → x.ToCurrency = target →
          x.IsWithinDateRange T = true →
          x.EffectiveDate.toDays ≤ er.EffectiveDate.toDays) ∧
    ((¬ ∃ er ∈ rates, er.FromCurrency = USD ∧ er.ToCurrency = target ∧
        er.IsWithinDateRange T = true) →
      (findExchangeRate rates treasury saveFails target T).treasuryCalls = 1 ∧
      ∀ tr, treasury = .ok tr → saveFails = false →
        (findExchangeRate rates treasury saveFails target T).result = .ok tr ∧
        (findExchangeRate rates treasury saveFails target T).rates = rates ++ [tr]) := by
  constructor
  · intro hex
    obtain ⟨er0, hfind⟩ := find_isSome_of_valid hex
    obtain ⟨hmem, hfrom, hto, hwin, hmax⟩ := find_some_spec hfind
    refine ⟨?_, ?_, er0, ?_, hmem, hfrom, hto, hwin, hmax⟩ <;>
      simp [findExchangeRate, hfind]
  · intro hnone
    have hmiss : FindRateForConversion rates USD target T = none := by
      cases hF : FindRateForConversion rates USD target T with
      | none => rfl
      | some er =>
        have hs := find_some_spec hF
        exact absurd ⟨er, hs.1, hs.2.1, hs.2.2.1, hs.2.2.2.1⟩ hnone
    refine ⟨?_, ?_⟩
    · simp only [findExchangeRate, hmiss]
      cases treasury with
      | error e => rfl
      | ok tr => cases saveFails <;> rfl
    · intro tr htr hsf
      subst htr
      subst hsf
      simp [findExchangeRate, hmiss]

/-- Witness for C3: the local-hit branch with a one-element store. -/
theorem c3_two_tier_resolution_witness :
    (∃ er ∈ [brlRate], er.FromCurrency = USD ∧ er.ToCurrency = "BRL" ∧
      er.IsWithinDateRange ⟨2024, 1, 20⟩ = true) ∧
    ((findExchangeRate [brlRate] (.error "down") false "BRL" ⟨2024, 1, 20⟩).treasuryCalls = 0 ∧
      (findExchangeRate [brlRate] (.error "down") false "BRL" ⟨2024, 1, 20⟩).rates = [brlRate] ∧
      ∃ er, (findExchangeRate [brlRate] (.error "down") false "BRL" ⟨2024, 1, 20⟩).result
          = .ok er ∧
        er ∈ [brlRate] ∧ er.FromCurrency = USD ∧ er.ToCurrency = "BRL" ∧
        er.IsWithinDateRange ⟨2024, 1, 20⟩ = true ∧
        ∀ x ∈ [brlRate], x.FromCurrency = USD → x.ToCurrency = "BRL" →
          x.IsWithinDateRange ⟨2024, 1, 20⟩ = true →
          x.EffectiveDate.toDays ≤ er.EffectiveDate.toDays) :=
  ⟨by decide,
    (c3_two_tier_resolution [brlRate] (.error "down") false "BRL" ⟨2024, 1, 20⟩).1 (by decide)⟩

end PurchaseApi
